import Mathlib

/-!
Verification of the PaymentAPI repository: a shallow embedding of its four
storage-backend variants (the file-backed `dbHelpers` used by `app.js`, the
in-memory `SimpleDatabase` of `appV2.js`, the `Database.java` rewrite, and the
Firebase variant) together with theorems settling the behavioural claims.

Modelling conventions:
- Machine integers are `Nat`/`Int`; balances are `Int` (JS numbers holding
  integer cents), epoch times are `Nat` seconds, wall-clock milliseconds `Nat`.
- A bcrypt digest (`bcryptjs.hashSync(x, rounds)`) is modelled as the pair of
  the random salt drawn at hashing time and the hashed input (`BHash`); two
  digests are equal exactly when both salt and input coincide, and
  `bcrypt.compareSync` re-hashes under the stored salt, i.e. checks the input
  component.  Salt randomness is modelled by a fresh-salt counter threaded
  through each state.
- A SHA-256 digest is modelled as an injective tagged string.
- Mutation of a record found by `Array.prototype.find` is modelled by
  `updateFirst`, which rewrites the first matching list element.
-/

/-- A bcrypt-style salted digest: the salt drawn when hashing plus the hashed
input.  Digest equality is structural, matching string equality of real
bcrypt outputs (collisions are out of model). -/
structure BHash where
  salt : Nat
  input : String
deriving DecidableEq, Repr

/-- `bcrypt.compareSync pw h`: re-hash `pw` under the salt stored in `h` and
compare; this succeeds exactly when the hashed input matches. -/
def bcryptCompare (pw : String) (h : BHash) : Bool :=
  h.input == pw

/-- Bearer tokens of the `app.js` variant: JWTs signed with the fixed server
secret carry the user id, username and issue time; any other string fails
`jwt.verify` (signature check). -/
inductive Tok where
  | jwt (userId : Nat) (username : String) (iat : Nat)
  | raw (s : String)
deriving DecidableEq, Repr

/-- The serialized token string. -/
def tokStr : Tok → String
  | .jwt uid un iat => "jwt." ++ toString uid ++ "." ++ un ++ "." ++ toString iat
  | .raw s => "raw." ++ s

/-- `hashToken` of `app.js`: a deterministic SHA-256 digest, modelled as an
injective tagged string. -/
def hashToken (t : Tok) : String :=
  "sha256." ++ tokStr t

/-- `jwt.verify` with the 24h `expiresIn` used at signing: a signed token
verifies while fewer than 86400 seconds have passed since issue; a raw
non-JWT string always fails. -/
def jwtVerify (t : Tok) (now : Nat) : Bool :=
  match t with
  | .jwt _ _ iat => decide (now < iat + 86400)
  | .raw _ => false

/-- Rewrite the first element satisfying `p` (JS `find` followed by in-place
mutation of the found record). -/
def updateFirst {α : Type} (p : α → Bool) (f : α → α) : List α → List α
  | [] => []
  | x :: rest => if p x then f x :: rest else x :: updateFirst p f rest

/-! ## The `dbHelpers` variant (file-backed JSON store behind `app.js`) -/

namespace DbH

/-- A row of `db.users` in the JSON store. -/
structure User where
  id : Nat
  username : String
  password_hash : BHash
  balance : Int
  failed_attempts : Nat
  locked_until : Nat
deriving DecidableEq, Repr

/-- A row of `db.sessions`. -/
structure Session where
  id : Nat
  user_id : Nat
  token_hash : String
  expires_at : Nat
deriving DecidableEq, Repr

/-- A row of `db.payments`. -/
structure Payment where
  id : Nat
  user_id : Nat
  amount : Int
  balance_before : Int
  balance_after : Int
deriving DecidableEq, Repr

/-- The JSON database object, plus the fresh-salt counter modelling bcrypt
salt randomness. -/
structure Db where
  users : List User
  sessions : List Session
  payments : List Payment
  lastUserId : Nat
  lastSessionId : Nat
  lastPaymentId : Nat
  nextSalt : Nat
deriving DecidableEq, Repr

/-- The freshly initialized database. -/
def emptyDb : Db := ⟨[], [], [], 0, 0, 0, 0⟩

/-- `dbHelpers.findUser`. -/
def findUser (db : Db) (username : String) : Option User :=
  db.users.find? (fun u => u.username == username)

/-- Lookup by id, as done inside `updateFailedAttempts` and
`processPayment` (`find`/`findIndex` by `u.id === userId`). -/
def findUserById (db : Db) (userId : Nat) : Option User :=
  db.users.find? (fun u => u.id == userId)

/-- `dbHelpers.updateFailedAttempts`: set the counters on the first user with
the given id. -/
def updateFailedAttempts (db : Db) (userId attempts lockUntil : Nat) : Db :=
  { db with users := (updateFirst (fun u => u.id == userId)
      (fun u => { u with failed_attempts := attempts, locked_until := lockUntil })
      db.users) }

/-- `dbHelpers.createUser`: reject an existing username with the
`CONSTRAINT_UNIQUE` error, otherwise append a fresh user with balance 800
and a salted bcrypt password hash. -/
def createUser (db : Db) (username pw : String) : Db × Except String User :=
  match findUser db username with
  | some _ => (db, .error "CONSTRAINT_UNIQUE")
  | none =>
    let uid := db.lastUserId + 1
    let u : User :=
      { id := uid, username := username, password_hash := ⟨db.nextSalt, pw⟩,
        balance := 800, failed_attempts := 0, locked_until := 0 }
    ({ db with users := db.users ++ [u], lastUserId := uid,
               nextSalt := db.nextSalt + 1 },
     .ok u)

/-- Outcome of `POST /auth/register` in `app.js`. -/
inductive RegisterResult where
  | created (id : Nat) (username : String)
  | weakPassword
  | duplicateUsername
deriving DecidableEq, Repr

/-- `POST /auth/register`: length check first, then `dbHelpers.createUser`,
with the `CONSTRAINT_UNIQUE` error mapped to 409 duplicate-username. -/
def registerEndpoint (db : Db) (username pw : String) : Db × RegisterResult :=
  if pw.length < 6 then (db, .weakPassword)
  else
    match createUser db username pw with
    | (db1, .ok u) => (db1, .created u.id u.username)
    | (db1, .error _) => (db1, .duplicateUsername)

/-- Outcome of `POST /auth/login` in `app.js`. -/
inductive LoginResult where
  | ok (token : Tok) (userId : Nat) (username : String) (balance : Int)
  | invalidCredentials
  | accountLocked
deriving DecidableEq, Repr

/-- `dbHelpers.saveSession`: append a session row. -/
def saveSession (db : Db) (userId : Nat) (tokenHash : String) (expiresAt : Nat) : Db :=
  let sid := db.lastSessionId + 1
  { db with sessions := db.sessions ++ [⟨sid, userId, tokenHash, expiresAt⟩],
            lastSessionId := sid }

/-- `POST /auth/login`: find the user, reject while `locked_until > now`,
compare the password with `bcrypt.compareSync`; on mismatch increment
`failed_attempts` and set a 30-minute lock when the new count reaches 5;
on match reset the counters (when nonzero), sign a JWT and persist its
SHA-256 digest with a 24-hour expiry. -/
def loginEndpoint (db : Db) (username pw : String) (now : Nat) : Db × LoginResult :=
  match findUser db username with
  | none => (db, .invalidCredentials)
  | some user =>
    if user.locked_until > now then (db, .accountLocked)
    else if bcryptCompare pw user.password_hash then
      let db1 := if user.failed_attempts > 0 then updateFailedAttempts db user.id 0 0 else db
      let token := Tok.jwt user.id user.username now
      let db2 := saveSession db1 user.id (hashToken token) (now + 86400)
      (db2, .ok token user.id user.username user.balance)
    else
      let newAttempts := user.failed_attempts + 1
      let lockUntil := if newAttempts ≥ 5 then now + 1800 else 0
      (updateFailedAttempts db user.id newAttempts lockUntil, .invalidCredentials)

/-- `dbHelpers.validateSession`: first session whose stored digest equals the
lookup digest and which has not expired, then resolve the owning user;
`none` uniformly otherwise. -/
def validateSession (db : Db) (tokenHash : String) (now : Nat) :
    Option (Session × String × Int) :=
  match db.sessions.find? (fun s => s.token_hash == tokenHash && decide (s.expires_at > now)) with
  | none => none
  | some s =>
    match findUserById db s.user_id with
    | none => none
    | some u => some (s, u.username, u.balance)

/-- `dbHelpers.removeSession`: drop every session with the given digest. -/
def removeSession (db : Db) (tokenHash : String) : Db :=
  { db with sessions := db.sessions.filter (fun s => s.token_hash != tokenHash) }

/-- The `authenticateToken` middleware: `jwt.verify`, then the digest lookup;
yields the resolved identity or nothing (401/403). -/
def authenticateToken (db : Db) (t : Tok) (now : Nat) : Option (Nat × String × Int) :=
  if jwtVerify t now then
    match validateSession db (hashToken t) now with
    | none => none
    | some (s, un, bal) => some (s.user_id, un, bal)
  else none

/-- `POST /auth/logout`: guarded by `authenticateToken`; on success remove the
session and report `true`, otherwise report `false` (the 401/403 path). -/
def logoutEndpoint (db : Db) (t : Tok) (now : Nat) : Db × Bool :=
  match authenticateToken db t now with
  | none => (db, false)
  | some _ => (removeSession db (hashToken t), true)

/-- The fixed charge, in cents. -/
def paymentAmount : Int := 110

/-- Outcome of `dbHelpers.processPayment`. -/
inductive PayResult where
  | ok (paymentId : Nat) (balanceBefore balanceAfter : Int)
  | userNotFound
  | insufficientFunds
deriving DecidableEq, Repr

/-- `dbHelpers.processPayment`: locate the user, reject when the balance does
not cover the fixed 110-cent charge (no mutation), otherwise debit the
balance and append the payment row carrying the pre- and post-balances. -/
def processPayment (db : Db) (userId : Nat) : Db × PayResult :=
  match findUserById db userId with
  | none => (db, .userNotFound)
  | some user =>
    if user.balance < paymentAmount then (db, .insufficientFunds)
    else
      let newBalance := user.balance - paymentAmount
      let pid := db.lastPaymentId + 1
      let pay : Payment := ⟨pid, userId, paymentAmount, user.balance, newBalance⟩
      ({ db with
          users := (updateFirst (fun u => u.id == userId)
            (fun u => { u with balance := newBalance }) db.users),
          payments := db.payments ++ [pay],
          lastPaymentId := pid },
       .ok pid user.balance newBalance)

/-- `POST /payments`: authenticate the token, then charge the resolved user. -/
def chargeEndpoint (db : Db) (t : Tok) (now : Nat) : Db × PayResult :=
  match authenticateToken db t now with
  | none => (db, .userNotFound)
  | some (uid, _, _) => processPayment db uid

/-- The operations of the `app.js` API surface, used to state store-lifetime
invariants. -/
inductive Op where
  | register (username pw : String)
  | login (username pw : String) (now : Nat)
  | charge (t : Tok) (now : Nat)
  | logout (t : Tok) (now : Nat)

/-- State reached after one API operation. -/
def applyOp (db : Db) : Op → Db
  | .register un pw => (registerEndpoint db un pw).1
  | .login un pw now => (loginEndpoint db un pw now).1
  | .charge t now => (chargeEndpoint db t now).1
  | .logout t now => (logoutEndpoint db t now).1

/-- The stored usernames, in store order. -/
def usernames (db : Db) : List String :=
  db.users.map User.username

end DbH

/-! ## The `SimpleDatabase` variant (`appV2.js`, in-memory) -/

namespace V2

/-- An element of `this.users`. -/
structure User where
  id : Nat
  username : String
  passwordHash : BHash
  balance : Int
  failedAttempts : Nat
  lockedUntil : Nat
deriving DecidableEq, Repr

/-- An element of `this.sessions`; note the token hash is itself a bcrypt
digest here (`hashPassword` is reused for tokens). -/
structure Session where
  id : Nat
  userId : Nat
  tokenHash : BHash
  expiresAt : Nat
deriving DecidableEq, Repr

/-- An element of `this.payments`. -/
structure Payment where
  id : Nat
  userId : Nat
  amount : Int
  balanceBefore : Int
  balanceAfter : Int
deriving DecidableEq, Repr

/-- The `SimpleDatabase` instance state, plus the fresh-salt counter. -/
structure St where
  users : List User
  sessions : List Session
  payments : List Payment
  nextUserId : Nat
  nextSessionId : Nat
  nextPaymentId : Nat
  nextSalt : Nat
deriving DecidableEq, Repr

/-- The constructor state. -/
def init : St := ⟨[], [], [], 1, 1, 1, 0⟩

/-- `this.hashPassword`: `bcryptjs.hashSync(input, 12)` draws a fresh random
salt on every call; the salt supply is the threaded counter. -/
def hashPassword (st : St) (input : String) : St × BHash :=
  ({ st with nextSalt := st.nextSalt + 1 }, ⟨st.nextSalt, input⟩)

/-- Outcome of `SimpleDatabase.createUser`. -/
inductive CreateResult where
  | ok (id : Nat)
  | userExists
deriving DecidableEq, Repr

/-- `SimpleDatabase.createUser`: no password-length validation; duplicate
usernames rejected, otherwise push a fresh user with balance 800. -/
def createUser (st : St) (username pw : String) : St × CreateResult :=
  match st.users.find? (fun u => u.username == username) with
  | some _ => (st, .userExists)
  | none =>
    let h := hashPassword st pw
    let u : User := ⟨h.1.nextUserId, username, h.2, 800, 0, 0⟩
    ({ h.1 with users := h.1.users ++ [u], nextUserId := h.1.nextUserId + 1 },
     .ok u.id)

/-- Outcome of `SimpleDatabase.loginUser`. -/
inductive LoginRes where
  | ok (token : String) (balance : Int)
  | invalidCredentials
  | accountLocked
deriving DecidableEq, Repr

/-- `SimpleDatabase.loginUser`: after the lock check it re-hashes the supplied
password with a fresh salt and compares the digest to the stored one with
strict equality; on mismatch increment `failedAttempts` and lock at 5 (the
lock field is left unchanged below 5); on match reset the counters and push
a session whose token is `token_<id>_<Date.now()>`. -/
def loginUser (st : St) (username pw : String) (nowMs : Nat) : St × LoginRes :=
  let now := nowMs / 1000
  match st.users.find? (fun u => u.username == username) with
  | none => (st, .invalidCredentials)
  | some user =>
    if user.lockedUntil > now then (st, .accountLocked)
    else
      let h := hashPassword st pw
      if user.passwordHash == h.2 then
        let st2 := { h.1 with users := (updateFirst (fun u => u.id == user.id)
          (fun u => { u with failedAttempts := 0, lockedUntil := 0 }) h.1.users) }
        let token := "token_" ++ toString user.id ++ "_" ++ toString nowMs
        let h2 := hashPassword st2 token
        let session : Session := ⟨h2.1.nextSessionId, user.id, h2.2, now + 86400⟩
        ({ h2.1 with sessions := h2.1.sessions ++ [session],
                     nextSessionId := h2.1.nextSessionId + 1 },
         .ok token user.balance)
      else
        let newAttempts := user.failedAttempts + 1
        let newLock := if newAttempts ≥ 5 then now + 1800 else user.lockedUntil
        ({ h.1 with users := (updateFirst (fun u => u.id == user.id)
          (fun u => { u with failedAttempts := newAttempts, lockedUntil := newLock }) h.1.users) },
         .invalidCredentials)

/-- Outcome of `SimpleDatabase.validateSession`; the error cases carry the
two distinct error strings of the source. -/
inductive ValidateRes where
  | ok (username : String) (balance : Int)
  | invalidToken
  | userNotFound
deriving DecidableEq, Repr

/-- `SimpleDatabase.validateSession`: hash the candidate token (fresh salt),
look for a live session with that exact digest, then resolve the user;
a missing user yields the distinct `User not found` error. -/
def validateSession (st : St) (token : String) (now : Nat) : St × ValidateRes :=
  let h := hashPassword st token
  match h.1.sessions.find? (fun s => s.tokenHash == h.2 && decide (s.expiresAt > now)) with
  | none => (h.1, .invalidToken)
  | some s =>
    match h.1.users.find? (fun u => u.id == s.userId) with
    | none => (h.1, .userNotFound)
    | some u => (h.1, .ok u.username u.balance)

/-- `SimpleDatabase.logout`: filter out sessions whose stored digest equals a
fresh hash of the token, and report success unconditionally. -/
def logout (st : St) (token : String) : St × Bool :=
  let h := hashPassword st token
  ({ h.1 with sessions := h.1.sessions.filter (fun s => s.tokenHash != h.2) }, true)

end V2

/-! ## The `Database.java` variant (deterministic SHA-256 hashing) -/

namespace Jv

/-- The Java `User` record. -/
structure User where
  id : Nat
  username : String
  passwordHash : String
  balance : Int
  failedAttempts : Nat
  lockedUntil : Nat
deriving DecidableEq, Repr

/-- The Java `Session` record. -/
structure Session where
  id : Nat
  userId : Nat
  tokenHash : String
  expiresAt : Nat
deriving DecidableEq, Repr

/-- The static state of the Java `Database` class. -/
structure St where
  users : List User
  sessions : List Session
  nextUserId : Nat
  nextSessionId : Nat
deriving DecidableEq, Repr

/-- The class-initializer state. -/
def init : St := ⟨[], [], 1, 1⟩

/-- `Database.hashPassword`: a plain SHA-256 hex digest, modelled as an
injective tagged string (deterministic, unsalted). -/
def hashPassword (s : String) : String :=
  "sha256." ++ s

/-- `Database.createUser`. -/
def createUser (st : St) (username pw : String) : St × Option Nat :=
  match st.users.find? (fun u => u.username == username) with
  | some _ => (st, none)
  | none =>
    let u : User := ⟨st.nextUserId, username, hashPassword pw, 800, 0, 0⟩
    ({ st with users := st.users ++ [u], nextUserId := st.nextUserId + 1 },
     some u.id)

/-- The session token built at `Database.java` line 138 (and identically in
`appV2.js` line 78 and the Firebase variant line 148): the literal user id
and wall-clock milliseconds. -/
def mkToken (uid nowMs : Nat) : String :=
  "token_" ++ toString uid ++ "_" ++ toString nowMs

/-- Outcome of `Database.loginUser`. -/
inductive JLoginRes where
  | ok (token : String) (balance : Int)
  | invalidCredentials
  | accountLocked
deriving DecidableEq, Repr

/-- `Database.loginUser`: lock check first, then a deterministic-digest
password comparison; failures increment `failedAttempts` (locking at 5);
success resets the counters and stores a session for `mkToken`. -/
def loginUser (st : St) (username pw : String) (nowMs : Nat) : St × JLoginRes :=
  let now := nowMs / 1000
  match st.users.find? (fun u => u.username == username) with
  | none => (st, .invalidCredentials)
  | some user =>
    if user.lockedUntil > now then (st, .accountLocked)
    else if user.passwordHash == hashPassword pw then
      let st1 := { st with users := (updateFirst (fun u => u.id == user.id)
        (fun u => { u with failedAttempts := 0, lockedUntil := 0 }) st.users) }
      let token := mkToken user.id nowMs
      let session : Session := ⟨st1.nextSessionId, user.id, hashPassword token, now + 86400⟩
      ({ st1 with sessions := st1.sessions ++ [session],
                  nextSessionId := st1.nextSessionId + 1 },
       .ok token user.balance)
    else
      let newAttempts := user.failedAttempts + 1
      let newLock := if newAttempts ≥ 5 then now + 1800 else user.lockedUntil
      ({ st with users := (updateFirst (fun u => u.id == user.id)
        (fun u => { u with failedAttempts := newAttempts, lockedUntil := newLock }) st.users) },
       .invalidCredentials)

end Jv

/-! ## The Firebase variant: the charge path as an interleaved step machine

`FirebaseDatabase.processPayment` awaits between reading the balance,
writing the debited balance, and pushing the payment record, so concurrent
calls interleave at those points.  Each thread runs the three-step program
below against the shared per-user state; the balance written is computed
from the value read before the await. -/

namespace Fb

/-- The shared per-user state: the stored balance and the number of payment
records written for this user. -/
structure Shared where
  balance : Int
  payments : Nat
deriving DecidableEq, Repr

/-- A thread running one `processPayment` call: it has read nothing yet,
holds a read balance that passed the funds check, has written the debited
balance, or has finished (successfully or with insufficient funds). -/
inductive TSt where
  | start
  | readDone (b : Int)
  | updated
  | ok
  | failed
deriving DecidableEq, Repr

/-- One atomic step of a thread: read-and-check the balance, write
`read - 110` back, or push the payment record. -/
def step (sh : Shared) : TSt → Shared × TSt
  | .start => if sh.balance < 110 then (sh, .failed) else (sh, .readDone sh.balance)
  | .readDone b => ({ sh with balance := b - 110 }, .updated)
  | .updated => ({ sh with payments := sh.payments + 1 }, .ok)
  | .ok => (sh, .ok)
  | .failed => (sh, .failed)

/-- Run two concurrent calls under a schedule (`true` steps the first
thread, `false` the second). -/
def run : List Bool → Shared → TSt → TSt → Shared × TSt × TSt
  | [], sh, a, b => (sh, a, b)
  | true :: rest, sh, a, b => run rest (step sh a).1 (step sh a).2 b
  | false :: rest, sh, a, b => run rest (step sh b).1 a (step sh b).2

end Fb

/-! ## Concrete states used by the claim witnesses and counterexamples -/

/-- A user with the fresh-account balance of 800 cents. -/
def c1u : DbH.User := ⟨1, "alice", ⟨0, "secret1"⟩, 800, 0, 0⟩

/-- A store holding only `c1u`. -/
def c1db : DbH.Db := ⟨[c1u], [], [], 1, 0, 0, 1⟩

/-- A user whose balance (90) does not cover the fixed charge. -/
def c1uLow : DbH.User := ⟨1, "bob", ⟨0, "secret1"⟩, 90, 0, 0⟩

/-- A store holding only `c1uLow`. -/
def c1dbLow : DbH.Db := ⟨[c1uLow], [], [], 1, 0, 0, 1⟩

/-- The `SimpleDatabase` state right after registering alice
with the password secret1. -/
def c3st : V2.St := (V2.createUser V2.init "alice" "secret1").1

/-- A user locked until epoch second 200, with the correct password
secret1 stored. -/
def c4uLocked : DbH.User := ⟨1, "alice", ⟨0, "secret1"⟩, 800, 5, 200⟩

/-- A store holding only `c4uLocked`. -/
def c4dbLocked : DbH.Db := ⟨[c4uLocked], [], [], 1, 0, 0, 1⟩

/-- An unlocked user with four accumulated failed attempts. -/
def c4uAt4 : DbH.User := ⟨1, "alice", ⟨0, "secret1"⟩, 800, 4, 0⟩

/-- A store holding only `c4uAt4`. -/
def c4dbAt4 : DbH.Db := ⟨[c4uAt4], [], [], 1, 0, 0, 1⟩

/-- A `SimpleDatabase` state whose one live session carries a token digest
that the next `hashPassword` call reproduces (salt 7), but whose `userId`
(42) references no stored user. -/
def c5st : V2.St := ⟨[], [⟨1, 42, ⟨7, "tok"⟩, 100⟩], [], 1, 2, 1, 7⟩

/-- A user for the `dbHelpers` session-validation witness. -/
def c5u : DbH.User := ⟨1, "alice", ⟨0, "secret1"⟩, 800, 0, 0⟩

/-- A store with one live session (digest h1, expiry 100) owned by `c5u`. -/
def c5db : DbH.Db := ⟨[c5u], [⟨1, 1, "h1", 100⟩], [], 1, 1, 0, 1⟩

/-- The owner of the session revoked in the C6 scenario. -/
def c6u : DbH.User := ⟨1, "alice", ⟨0, "secret1"⟩, 800, 0, 0⟩

/-- A JWT issued to user 1 at epoch second 0. -/
def c6tok : Tok := Tok.jwt 1 "alice" 0

/-- A store with one live session for `c6tok`. -/
def c6db : DbH.Db := ⟨[c6u], [⟨1, 1, hashToken c6tok, 86400⟩], [], 1, 1, 0, 1⟩

/-- The store produced by the first successful registration of alice. -/
def c8db' : DbH.Db := (DbH.createUser DbH.emptyDb "alice" "secret1").1

/-- The user record that registration appends. -/
def c8uA : DbH.User := ⟨1, "alice", ⟨0, "secret1"⟩, 800, 0, 0⟩

/-- The Java store right after registering alice. -/
def c9st : Jv.St := (Jv.createUser Jv.init "alice" "secret1").1

/-- The Java store after the subsequent login at wall-clock millisecond 5000. -/
def c9st' : Jv.St := (Jv.loginUser c9st "alice" "secret1" 5000).1

/-- A user whose lockout window (until second 50) has already elapsed at
`now = 100`, with the five accumulated failed attempts retained. -/
def c10u : DbH.User := ⟨1, "alice", ⟨0, "secret1"⟩, 800, 5, 50⟩

/-- A store holding only `c10u`. -/
def c10db : DbH.Db := ⟨[c10u], [], [], 1, 0, 0, 1⟩

/-! ## Helper lemmas -/

/-- Rewriting the first match keeps it the first match, provided the rewrite
preserves the predicate. -/
theorem find?_updateFirst {α : Type} (p : α → Bool) (f : α → α) (l : List α) (x : α)
    (hfind : l.find? p = some x) (hf : ∀ y, p y = true → p (f y) = true) :
    (updateFirst p f l).find? p = some (f x) := by
  induction l with
  | nil => simp at hfind
  | cons a rest ih =>
    by_cases hpa : p a = true
    · rw [List.find?_cons_of_pos _ hpa] at hfind
      rw [updateFirst, if_pos hpa, List.find?_cons_of_pos _ (hf a hpa)]
      cases hfind
      rfl
    · rw [List.find?_cons_of_neg _ hpa] at hfind
      rw [updateFirst, if_neg hpa, List.find?_cons_of_neg _ hpa]
      exact ih hfind

/-- `updateFirst` leaves any projection the rewrite preserves unchanged
across the whole list. -/
theorem map_updateFirst {α β : Type} (g : α → β) (p : α → Bool) (f : α → α)
    (hf : ∀ x, g (f x) = g x) (l : List α) :
    (updateFirst p f l).map g = l.map g := by
  induction l with
  | nil => rfl
  | cons a rest ih =>
    by_cases h : p a = true
    · simp [updateFirst, h, hf]
    · simp [updateFirst, h, ih]

/-- Searching an appended list starts in the left part. -/
theorem find?_append_of_none {α : Type} (p : α → Bool) (l1 l2 : List α)
    (h : l1.find? p = none) : (l1 ++ l2).find? p = l2.find? p := by
  rw [List.find?_append, h, Option.none_or]

namespace DbH

/-- `updateFailedAttempts` touches only the lockout counters, never the
stored usernames. -/
theorem usernames_updateFailedAttempts (db : Db) (i a l : Nat) :
    usernames (updateFailedAttempts db i a l) = usernames db := by
  unfold usernames updateFailedAttempts
  exact map_updateFirst User.username (fun u => u.id == i)
    (fun u => { u with failed_attempts := a, locked_until := l })
    (fun _ => rfl) db.users

/-- Looking up by id after `updateFailedAttempts` returns the found user with
the two counters rewritten. -/
theorem findUserById_updateFailedAttempts (db : Db) (i a l : Nat) (u : User)
    (h : findUserById db i = some u) :
    findUserById (updateFailedAttempts db i a l) i =
      some { u with failed_attempts := a, locked_until := l } := by
  unfold findUserById updateFailedAttempts at *
  exact find?_updateFirst _ _ db.users u h (fun y hy => hy)

/-- `saveSession` leaves the user table unchanged. -/
theorem usernames_saveSession (db : Db) (uid : Nat) (th : String) (e : Nat) :
    usernames (saveSession db uid th e) = usernames db := rfl

/-- `removeSession` leaves the user table unchanged. -/
theorem usernames_removeSession (db : Db) (th : String) :
    usernames (removeSession db th) = usernames db := rfl

/-- `loginEndpoint` never changes the stored usernames. -/
theorem usernames_loginEndpoint (db : Db) (un pw : String) (now : Nat) :
    usernames (loginEndpoint db un pw now).1 = usernames db := by
  unfold loginEndpoint
  cases hf : findUser db un with
  | none => rfl
  | some user =>
    by_cases hl : user.locked_until > now
    · simp [hl]
    · by_cases hc : bcryptCompare pw user.password_hash
      · by_cases ha : user.failed_attempts > 0
        · simp [hl, hc, ha, usernames_saveSession, usernames_updateFailedAttempts]
        · simp [hl, hc, ha, usernames_saveSession]
      · simp [hl, hc, usernames_updateFailedAttempts]

/-- `processPayment` never changes the stored usernames. -/
theorem usernames_processPayment (db : Db) (uid : Nat) :
    usernames (processPayment db uid).1 = usernames db := by
  unfold processPayment
  cases hf : findUserById db uid with
  | none => rfl
  | some user =>
    by_cases hb : user.balance < paymentAmount
    · simp [hb]
    · simp only [hb, if_false]
      exact map_updateFirst User.username (fun u => u.id == uid)
        (fun u => { u with balance := user.balance - paymentAmount })
        (fun _ => rfl) db.users

/-- `chargeEndpoint` never changes the stored usernames. -/
theorem usernames_chargeEndpoint (db : Db) (t : Tok) (now : Nat) :
    usernames (chargeEndpoint db t now).1 = usernames db := by
  unfold chargeEndpoint
  cases h : authenticateToken db t now with
  | none => rfl
  | some r => exact usernames_processPayment db r.1

/-- `logoutEndpoint` never changes the stored usernames. -/
theorem usernames_logoutEndpoint (db : Db) (t : Tok) (now : Nat) :
    usernames (logoutEndpoint db t now).1 = usernames db := by
  unfold logoutEndpoint
  cases h : authenticateToken db t now with
  | none => rfl
  | some r => rfl

end DbH

namespace DbH

/-- A successful `createUser` keeps the username list duplicate-free: the
append happens only after the exact-match lookup came back empty. -/
theorem nodup_usernames_createUser (db : Db) (un pw : String)
    (h : (usernames db).Nodup) : (usernames (createUser db un pw).1).Nodup := by
  unfold createUser
  cases hf : findUser db un with
  | some u => simpa using h
  | none =>
    have hnotin : ∀ x ∈ db.users, ¬(x.username == un) = true :=
      List.find?_eq_none.mp hf
    simp only [usernames, List.map_append, List.map_cons, List.map_nil]
    rw [List.nodup_append]
    refine ⟨h, List.nodup_singleton _, ?_⟩
    intro x hx hx2
    rcases List.mem_map.mp hx with ⟨y, hy, hyx⟩
    rcases List.mem_singleton.mp hx2 with rfl
    exact hnotin y hy (by simp [hyx])

/-- The register route also keeps the username list duplicate-free. -/
theorem nodup_usernames_registerEndpoint (db : Db) (un pw : String)
    (h : (usernames db).Nodup) : (usernames (registerEndpoint db un pw).1).Nodup := by
  unfold registerEndpoint
  by_cases hw : pw.length < 6
  · simpa [hw] using h
  · simp only [hw, if_false]
    have hnd := nodup_usernames_createUser db un pw h
    rcases hc : createUser db un pw with ⟨db1, r⟩
    rw [hc] at hnd
    cases r with
    | ok u => simpa [hc] using hnd
    | error e => simpa [hc] using hnd

/-- No API operation introduces a duplicate username. -/
theorem nodup_usernames_applyOp (db : Db) (op : Op)
    (h : (usernames db).Nodup) : (usernames (applyOp db op)).Nodup := by
  cases op with
  | register un pw => exact nodup_usernames_registerEndpoint db un pw h
  | login un pw now =>
    simp only [applyOp]
    rw [usernames_loginEndpoint]
    exact h
  | charge t now =>
    simp only [applyOp]
    rw [usernames_chargeEndpoint]
    exact h
  | logout t now =>
    simp only [applyOp]
    rw [usernames_logoutEndpoint]
    exact h

end DbH

/-! ## Claim theorems -/

/-- C1: for every stored user, the fixed-amount charge succeeds exactly when
the balance covers 110 cents; on success it debits exactly 110 and appends
one Payment whose `balance_before` is the pre-debit balance and whose
`balance_after` is that minus 110; on failure it reports insufficient funds
and leaves the store (balance and ledger) unchanged. -/
theorem c1_charge_debits_exactly_110 (db : DbH.Db) (uid : Nat) (u : DbH.User)
    (h : DbH.findUserById db uid = some u) :
    (DbH.paymentAmount ≤ u.balance →
      DbH.processPayment db uid =
        ({ db with
            users := (updateFirst (fun v => v.id == uid)
              (fun v => { v with balance := u.balance - DbH.paymentAmount }) db.users),
            payments := db.payments ++
              [⟨db.lastPaymentId + 1, uid, DbH.paymentAmount, u.balance,
                u.balance - DbH.paymentAmount⟩],
            lastPaymentId := db.lastPaymentId + 1 },
         .ok (db.lastPaymentId + 1) u.balance (u.balance - DbH.paymentAmount))) ∧
    (u.balance < DbH.paymentAmount →
      DbH.processPayment db uid = (db, .insufficientFunds)) := by
  constructor
  · intro hge
    simp [DbH.processPayment, h, not_lt.mpr hge]
  · intro hlt
    simp [DbH.processPayment, h, hlt]

/-- C1 witness: a fresh account at 800 cents is charged to 690, then to 580,
and a balance of 90 is rejected without any change to the store. -/
theorem c1_charge_witness :
    (DbH.processPayment c1db 1).2 = .ok 1 800 690 ∧
    (DbH.processPayment (DbH.processPayment c1db 1).1 1).2 = .ok 2 690 580 ∧
    DbH.processPayment c1dbLow 1 = (c1dbLow, .insufficientFunds) := by
  refine ⟨?_, ?_, ?_⟩
  · rw [(c1_charge_debits_exactly_110 c1db 1 c1u (by decide)).1 (by decide)]
    decide
  · rw [(c1_charge_debits_exactly_110 (DbH.processPayment c1db 1).1 1
      ⟨1, "alice", ⟨0, "secret1"⟩, 690, 0, 0⟩ (by decide)).1 (by decide)]
    decide
  · exact (c1_charge_debits_exactly_110 c1dbLow 1 c1uLow (by decide)).2 (by decide)

/-- C2: in the Firebase variant, a balance of exactly 110 cents and two
concurrent charge calls interleaved read-read-write-write lets both calls
pass the stale funds check, both write balance 0 and both append a Payment
record: two successes and two Payments, where the claim requires exactly
one success and one Payment. -/
theorem c2_firebase_double_success :
    Fb.run [true, false, true, true, false, false] ⟨110, 0⟩ .start .start
      = (⟨0, 2⟩, .ok, .ok) := by decide

/-- C3: in the `SimpleDatabase` variant, logging in with the exact password
used at registration is rejected as invalid credentials (the code re-hashes
the supplied password under a fresh bcrypt salt and compares digests with
strict equality), and the failed-attempt counter is incremented instead of
reset. -/
theorem c3_v2_correct_password_rejected :
    (V2.loginUser c3st "alice" "secret1" 0).2 = V2.LoginRes.invalidCredentials ∧
    ((V2.loginUser c3st "alice" "secret1" 0).1.users.map V2.User.failedAttempts) = [1] := by
  decide

/-- C7 (amended): in the `app.js` route, registering with a password shorter
than 6 characters fails with the weak-password error and creates no user
record. -/
theorem c7_weak_password_rejected (db : DbH.Db) (un pw : String) (h : pw.length < 6) :
    DbH.registerEndpoint db un pw = (db, .weakPassword) := by
  simp [DbH.registerEndpoint, h]

/-- C7 witness: a three-letter password is rejected by the route. -/
theorem c7_weak_password_witness :
    DbH.registerEndpoint DbH.emptyDb "bob" "abc" = (DbH.emptyDb, .weakPassword) :=
  c7_weak_password_rejected DbH.emptyDb "bob" "abc" (by decide)

/-- C7 counterexample: the `SimpleDatabase` variant performs no length check,
so a three-letter password registers successfully and a user record is
created, contradicting the claim that every register call with a password
shorter than 6 fails with the weak-password error. -/
theorem c7_v2_short_password_accepted :
    "abc".length < 6 ∧
    (V2.createUser V2.init "bob" "abc").2 = V2.CreateResult.ok 1 ∧
    ((V2.createUser V2.init "bob" "abc").1.users.map V2.User.username) = ["bob"] := by
  decide

/-- C4: while `locked_until` lies in the future the login endpoint answers
account-locked and leaves the store untouched, for every supplied password
(the lock test precedes the password comparison); and a fifth consecutive
wrong-password attempt (counter at 4, not locked) sets the lock to
`now + 1800`. -/
theorem c4_lockout_before_password (db : DbH.Db) (un pw : String) (now : Nat)
    (u : DbH.User) (h : DbH.findUser db un = some u) :
    (u.locked_until > now →
      DbH.loginEndpoint db un pw now = (db, .accountLocked)) ∧
    (u.locked_until ≤ now → u.failed_attempts = 4 →
      bcryptCompare pw u.password_hash = false →
      DbH.loginEndpoint db un pw now =
        (DbH.updateFailedAttempts db u.id 5 (now + 1800), .invalidCredentials) ∧
      (DbH.findUserById db u.id = some u →
        DbH.findUserById (DbH.loginEndpoint db un pw now).1 u.id =
          some { u with failed_attempts := 5, locked_until := now + 1800 })) := by
  constructor
  · intro hl
    simp [DbH.loginEndpoint, h, hl]
  · intro hnl ha hpw
    have hlneg : ¬(u.locked_until > now) := not_lt.mpr hnl
    have heq : DbH.loginEndpoint db un pw now =
        (DbH.updateFailedAttempts db u.id 5 (now + 1800), .invalidCredentials) := by
      simp [DbH.loginEndpoint, h, hlneg, hpw, ha]
    refine ⟨heq, fun hid => ?_⟩
    rw [heq]
    exact DbH.findUserById_updateFailedAttempts db u.id 5 (now + 1800) u hid

/-- C4 witness: a locked user (until 200, at now 100) is rejected even with
the correct password and without mutation, and a user at four failures is
locked until 1900 by the fifth wrong password at now 100. -/
theorem c4_lockout_witness :
    DbH.loginEndpoint c4dbLocked "alice" "secret1" 100 = (c4dbLocked, .accountLocked) ∧
    DbH.loginEndpoint c4dbAt4 "alice" "wrong" 100 =
      (DbH.updateFailedAttempts c4dbAt4 1 5 1900, .invalidCredentials) := by
  constructor
  · exact (c4_lockout_before_password c4dbLocked "alice" "secret1" 100 c4uLocked
      (by decide)).1 (by decide)
  · exact ((c4_lockout_before_password c4dbAt4 "alice" "wrong" 100 c4uAt4
      (by decide)).2 (by decide) (by decide) (by decide)).1

/-- C10: once the lockout window has elapsed (`locked_until ≤ now`) the
accumulated `failed_attempts` (at least 5) is retained, so one further
wrong-password attempt immediately re-locks for 1800 seconds. -/
theorem c10_single_failure_relocks (db : DbH.Db) (un pw : String) (now : Nat)
    (u : DbH.User) (h : DbH.findUser db un = some u)
    (hnl : u.locked_until ≤ now)
    (ha : 5 ≤ u.failed_attempts)
    (hpw : bcryptCompare pw u.password_hash = false) :
    DbH.loginEndpoint db un pw now =
      (DbH.updateFailedAttempts db u.id (u.failed_attempts + 1) (now + 1800),
       .invalidCredentials) ∧
    (DbH.findUserById db u.id = some u →
      DbH.findUserById (DbH.loginEndpoint db un pw now).1 u.id =
        some { u with failed_attempts := u.failed_attempts + 1,
                      locked_until := now + 1800 }) := by
  have hlneg : ¬(u.locked_until > now) := not_lt.mpr hnl
  have hge : u.failed_attempts + 1 ≥ 5 := le_trans ha (Nat.le_succ _)
  have heq : DbH.loginEndpoint db un pw now =
      (DbH.updateFailedAttempts db u.id (u.failed_attempts + 1) (now + 1800),
       .invalidCredentials) := by
    simp [DbH.loginEndpoint, h, hlneg, hpw, hge]
  refine ⟨heq, fun hid => ?_⟩
  rw [heq]
  exact DbH.findUserById_updateFailedAttempts db u.id (u.failed_attempts + 1)
    (now + 1800) u hid

/-- C10 witness: a user whose lock (until 50) has elapsed at now 100 and who
still carries 5 failed attempts is re-locked until 1900 by one wrong
password. -/
theorem c10_relock_witness :
    DbH.loginEndpoint c10db "alice" "wrong" 100 =
      (DbH.updateFailedAttempts c10db 1 6 1900, .invalidCredentials) ∧
    DbH.findUserById (DbH.loginEndpoint c10db "alice" "wrong" 100).1 1 =
      some ⟨1, "alice", ⟨0, "secret1"⟩, 800, 6, 1900⟩ := by
  have h := c10_single_failure_relocks c10db "alice" "wrong" 100 c10u
    (by decide) (by decide) (by decide) (by decide)
  exact ⟨h.1, h.2 (by decide)⟩

/-- C5 (amended): in the `dbHelpers` variant, session validation succeeds
exactly when a stored session carries the given token digest and has not
expired and its owning user exists; on success it returns that owner and
balance; in every other case (unknown digest, expired session, or missing
owner) it returns the one failure value `none` uniformly.  The hypothesis
states that at most one stored session carries the digest, which login
guarantees because each session stores the digest of a distinct token. -/
theorem c5_validate_iff (db : DbH.Db) (th : String) (now : Nat)
    (huniq : ∀ s1 ∈ db.sessions, ∀ s2 ∈ db.sessions,
      s1.token_hash = th → s2.token_hash = th → s1 = s2) :
    ((DbH.validateSession db th now).isSome = true ↔
      ∃ s ∈ db.sessions, s.token_hash = th ∧ s.expires_at > now ∧
        ∃ u ∈ db.users, u.id = s.user_id) ∧
    (∀ s un bal, DbH.validateSession db th now = some (s, un, bal) →
      s ∈ db.sessions ∧ s.token_hash = th ∧ s.expires_at > now ∧
        ∃ u ∈ db.users, u.id = s.user_id ∧ un = u.username ∧ bal = u.balance) := by
  cases hfind : db.sessions.find?
      (fun s => s.token_hash == th && decide (s.expires_at > now)) with
  | none =>
    have hall := List.find?_eq_none.mp hfind
    constructor
    · simp only [DbH.validateSession, hfind, Option.isSome_none, Bool.false_eq_true,
        false_iff]
      rintro ⟨s, hs, hth, hex, -⟩
      have hcontra := hall s hs
      simp [hth, hex] at hcontra
    · intro s un bal hsome
      simp [DbH.validateSession, hfind] at hsome
  | some s =>
    have hps := List.find?_some hfind
    have hmem := List.mem_of_find?_eq_some hfind
    rw [Bool.and_eq_true, beq_iff_eq, decide_eq_true_eq] at hps
    obtain ⟨hth, hex⟩ := hps
    cases hu : DbH.findUserById db s.user_id with
    | some u =>
      have humem : u ∈ db.users := List.mem_of_find?_eq_some hu
      have huid : u.id = s.user_id := by
        have := List.find?_some hu
        rwa [beq_iff_eq] at this
      constructor
      · simp only [DbH.validateSession, hfind, hu, Option.isSome_some, true_iff]
        exact ⟨s, hmem, hth, hex, u, humem, huid⟩
      · intro s' un bal hsome
        simp only [DbH.validateSession, hfind, hu, Option.some.injEq] at hsome
        obtain ⟨rfl, rfl, rfl⟩ := Prod.mk.injEq .. ▸ hsome
        exact ⟨hmem, hth, hex, u, humem, huid, rfl, rfl⟩
    | none =>
      have hnone := List.find?_eq_none.mp hu
      constructor
      · simp only [DbH.validateSession, hfind, hu, Option.isSome_none,
          Bool.false_eq_true, false_iff]
        rintro ⟨s', hs', hth', hex', u', hu', hid'⟩
        have hss : s' = s := huniq s' hs' s hmem hth' hth
        subst hss
        have hcontra := hnone u' hu'
        simp [hid'] at hcontra
      · intro s' un bal hsome
        simp [DbH.validateSession, hfind, hu] at hsome

/-- C5 witness: in a store with one live session (digest h1, owner present)
the validation succeeds at now 10. -/
theorem c5_validate_witness :
    (DbH.validateSession c5db "h1" 10).isSome = true :=
  (c5_validate_iff c5db "h1" 10 (by decide)).1.mpr (by decide)

/-- C5 counterexample: in the `SimpleDatabase` variant, a live session whose
digest matches but whose `userId` references no stored user is answered
with the distinct user-not-found error, not the uniform token-invalid
error the claim requires for that case. -/
theorem c5_v2_missing_user_distinct_error :
    (V2.validateSession c5st "tok" 0).2 = V2.ValidateRes.userNotFound ∧
    V2.ValidateRes.userNotFound ≠ V2.ValidateRes.invalidToken := by decide

/-- C6 (amended): in `app.js` the logout endpoint is guarded by token
authentication: when the token resolves to a live session it removes every
session with that digest and reports success, but when the token does not
authenticate (unknown, expired, or already revoked, hence also any second
revoke of the same token) it reports failure instead of success; the
`SimpleDatabase` variant of logout reports success unconditionally. -/
theorem c6_revoke_guarded (db : DbH.Db) (t : Tok) (now : Nat) :
    (DbH.authenticateToken db t now = none →
      DbH.logoutEndpoint db t now = (db, false)) ∧
    (∀ uid un bal, DbH.authenticateToken db t now = some (uid, un, bal) →
      DbH.logoutEndpoint db t now = (DbH.removeSession db (hashToken t), true)) ∧
    (∀ (st : V2.St) (token : String), (V2.logout st token).2 = true) := by
  refine ⟨?_, ?_, ?_⟩
  · intro h
    simp [DbH.logoutEndpoint, h]
  · intro uid un bal h
    simp [DbH.logoutEndpoint, h]
  · intro st token
    rfl

/-- C6 witness: with one live session for the token, logout removes it and
reports success; a token that does not authenticate is reported as failure;
the `SimpleDatabase` logout reports success on the initial state. -/
theorem c6_revoke_witness :
    DbH.logoutEndpoint c6db (Tok.raw "junk") 10 = (c6db, false) ∧
    DbH.logoutEndpoint c6db c6tok 10 = (DbH.removeSession c6db (hashToken c6tok), true) ∧
    (V2.logout V2.init "t").2 = true :=
  ⟨(c6_revoke_guarded c6db (Tok.raw "junk") 10).1 (by decide),
   (c6_revoke_guarded c6db c6tok 10).2.1 1 "alice" 800 (by decide),
   (c6_revoke_guarded c6db c6tok 10).2.2 V2.init "t"⟩

/-- C6 counterexample: the first revoke of the token reports success, but the
second revoke of the very same token reports failure (the guard rejects it),
contradicting the claim that every revoke reports success and that revoke is
idempotent. -/
theorem c6_second_revoke_rejected :
    (DbH.logoutEndpoint c6db c6tok 10).2 = true ∧
    (DbH.logoutEndpoint (DbH.logoutEndpoint c6db c6tok 10).1 c6tok 10).2 = false := by
  decide

/-- C8: after a successful registration of a username, a second registration
of the same username fails with the unique-constraint error and leaves the
store unchanged; exactly one user record with that username exists; and no
API operation ever introduces a duplicate username. -/
theorem c8_duplicate_username (db db' : DbH.Db) (un pw pw2 : String) (u : DbH.User)
    (hreg : DbH.createUser db un pw = (db', Except.ok u)) :
    (DbH.createUser db' un pw2).2 = Except.error "CONSTRAINT_UNIQUE" ∧
    (DbH.createUser db' un pw2).1 = db' ∧
    (db'.users.filter (fun v => v.username == un)).length = 1 ∧
    (∀ (db0 : DbH.Db) (op : DbH.Op),
      (DbH.usernames db0).Nodup → (DbH.usernames (DbH.applyOp db0 op)).Nodup) := by
  unfold DbH.createUser at hreg
  cases hf : DbH.findUser db un with
  | some w =>
    rw [hf] at hreg
    simp at hreg
  | none =>
    rw [hf] at hreg
    simp only [Prod.mk.injEq, Except.ok.injEq] at hreg
    obtain ⟨hdb, hu⟩ := hreg
    have hfnil : ∀ x ∈ db.users, ¬(x.username == un) = true := by
      intro x hx
      exact List.find?_eq_none.mp hf x hx
    have hfind' : DbH.findUser db' un =
        some { id := db.lastUserId + 1, username := un,
               password_hash := ⟨db.nextSalt, pw⟩, balance := 800,
               failed_attempts := 0, locked_until := 0 } := by
      rw [← hdb]
      unfold DbH.findUser
      rw [find?_append_of_none _ _ _ (List.find?_eq_none.mpr hfnil)]
      exact List.find?_cons_of_pos _ (by simp)
    refine ⟨?_, ?_, ?_, fun db0 op h0 => DbH.nodup_usernames_applyOp db0 op h0⟩
    · simp [DbH.createUser, hfind']
    · simp [DbH.createUser, hfind']
    · rw [← hdb]
      simp only [List.filter_append]
      rw [List.filter_eq_nil_iff.mpr hfnil]
      simp

/-- C8 witness: registering alice into the empty store, a second registration
of alice is rejected without mutation and exactly one alice record exists. -/
theorem c8_duplicate_witness :
    (DbH.createUser c8db' "alice" "pw2345").2 = Except.error "CONSTRAINT_UNIQUE" ∧
    (DbH.createUser c8db' "alice" "pw2345").1 = c8db' ∧
    (c8db'.users.filter (fun v => v.username == "alice")).length = 1 := by
  have h := c8_duplicate_username DbH.emptyDb c8db' "alice" "secret1" "pw2345" c8uA
    (by rfl)
  exact ⟨h.1, h.2.1, h.2.2.1⟩

/-- C9 (amended): every successful login of the `Database.java` variant (and
identically the `SimpleDatabase` and Firebase variants) returns as bearer
token exactly the string `token_<userId>_<nowMillis>`: a deterministic
function of the user id and the wall-clock time, not an unguessable value. -/
theorem c9_token_deterministic (st st' : Jv.St) (un pw : String) (nowMs : Nat)
    (tok : String) (bal : Int)
    (h : Jv.loginUser st un pw nowMs = (st', Jv.JLoginRes.ok tok bal)) :
    ∃ u, st.users.find? (fun v => v.username == un) = some u ∧
      tok = Jv.mkToken u.id nowMs := by
  unfold Jv.loginUser at h
  cases hf : st.users.find? (fun v => v.username == un) with
  | none =>
    simp only [hf] at h
    simp at h
  | some user =>
    simp only [hf] at h
    by_cases hl : user.lockedUntil > nowMs / 1000
    · rw [if_pos hl] at h
      simp at h
    · rw [if_neg hl] at h
      by_cases hc : (user.passwordHash == Jv.hashPassword pw) = true
      · rw [if_pos hc] at h
        simp only [Prod.mk.injEq, Jv.JLoginRes.ok.injEq] at h
        exact ⟨user, rfl, h.2.1.symm⟩
      · rw [if_neg hc] at h
        simp at h

/-- C9 witness: the login of alice at wall-clock millisecond 5000 returns
exactly the deterministic string for user id 1 and time 5000. -/
theorem c9_token_witness :
    ∃ u, c9st.users.find? (fun v => v.username == "alice") = some u ∧
      "token_1_5000" = Jv.mkToken u.id 5000 :=
  c9_token_deterministic c9st c9st' "alice" "secret1" 5000 "token_1_5000" 800
    (by decide)

/-- C9 counterexample: a concrete successful login returns the token
`token_1_5000`, which is literally the user id (1) concatenated with the
wall-clock time (5000) — the predictable construction the claim rules
out. -/
theorem c9_token_from_id_and_time :
    (Jv.loginUser c9st "alice" "secret1" 5000).2 = Jv.JLoginRes.ok "token_1_5000" 800 ∧
    Jv.mkToken 1 5000 = "token_1_5000" := by decide
